import Mathlib

/-!
Verification of the campaign soft-delete lifecycle of the ChronoLure
repository (a gophish fork).  The Go functions of `models/campaign_trash.go`
(`SoftDeleteCampaign`, `RestoreCampaign`, `PurgeCampaign`,
`PurgeSystemCampaign`, `checkNameConflict`, `ListPurgeCandidates`) and of
`worker/trash_ttl.go` (`TrashTTLJob.RunOnce`, `Start`, `Stop`) are embedded
shallowly: the database is an explicit record of row lists, a transaction is
modelled by returning the original database on rollback, and the fallible
storage operations (save, audit insert, the individual cascade deletions,
commit) are driven by an explicit fault-injection record so that the
rollback behaviour of each failure point can be stated and proved.
-/

namespace ChronoLure

/-- Campaign status enum (`CampaignCreated`, `CampaignQueued`,
`CampaignInProgress`, `CampaignComplete` string constants in Go). -/
inductive CampaignStatus where
  | created
  | queued
  | inProgress
  | complete
deriving Repr, DecidableEq

/-- The campaign row with the lifecycle columns added by migration
`20260118000001_add_soft_delete_campaigns.sql`.  Timestamps are modelled as
integers. -/
structure Campaign where
  id : Int
  userId : Int
  name : String
  status : CampaignStatus
  campaignType : String
  deletedAt : Option Int := none
  deletedBy : Option Int := none
  restoredAt : Option Int := none
  restoredBy : Option Int := none
  statusBeforeDelete : Option CampaignStatus := none
  deleteReason : String := ""
  version : Nat := 0
deriving Repr, DecidableEq

/-- `Campaign.IsDeleted`: the campaign is in the trash. -/
def Campaign.IsDeleted (c : Campaign) : Bool :=
  c.deletedAt.isSome

/-- A tracking-event row (`events` table), keyed by campaign. -/
structure EventRow where
  id : Int
  campaignId : Int
deriving Repr, DecidableEq

/-- A delivery-result row (`results` table), keyed by campaign. -/
structure ResultRow where
  id : Int
  campaignId : Int
deriving Repr, DecidableEq

/-- A calendar-tracking event row (`calendar_events` table), keyed by
delivery result. -/
structure CalendarEventRow where
  id : Int
  resultId : Int
deriving Repr, DecidableEq

/-- A campaign-to-group association row (`campaign_groups` table). -/
structure CampaignGroupRow where
  campaignId : Int
  groupId : Int
deriving Repr, DecidableEq

/-- Audit action constants from `models/audit_log.go`. -/
def AuditCampaignSoftDeleted : String := "CAMPAIGN_SOFT_DELETED"

/-- Audit action constant for restore. -/
def AuditCampaignRestored : String := "CAMPAIGN_RESTORED"

/-- Audit action constant for purge. -/
def AuditCampaignPurged : String := "CAMPAIGN_PURGED"

/-- An audit-ledger entry (`AuditLog` in `models/audit_log.go`).  The JSON
metadata payload is modelled as an association list of stringified values;
no theorem below inspects the values. -/
structure AuditLog where
  actorId : Option Int
  actorName : String := ""
  action : String
  entityType : String
  entityId : Int
  metadata : List (String × String) := []
deriving Repr, DecidableEq

/-- The database state: one list of rows per table touched by the lifecycle
operations, plus the append-only audit ledger. -/
structure DB where
  campaigns : List Campaign
  events : List EventRow
  results : List ResultRow
  calendarEvents : List CalendarEventRow
  campaignGroups : List CampaignGroupRow
  auditLog : List AuditLog
deriving Repr, DecidableEq

/-- Fault injection for the fallible storage operations inside a lifecycle
transaction.  Each flag makes the corresponding statement fail; `tx.Begin`
and `tx.Rollback` are modelled implicitly (a rolled-back transaction
returns the original database). -/
structure Faults where
  saveFails : Bool := false
  auditCreateFails : Bool := false
  deleteCalendarEventsFails : Bool := false
  deleteEventsFails : Bool := false
  deleteResultsFails : Bool := false
  deleteCampaignGroupsFails : Bool := false
  deleteCampaignFails : Bool := false
  countFails : Bool := false
  commitFails : Bool := false
deriving Repr, DecidableEq

/-- No injected faults: every storage operation succeeds. -/
def noFaults : Faults := {}

/-- The error taxonomy of `models/campaign_trash.go`: the named sentinel
errors plus generic storage errors (carrying the Go error message). -/
inductive LifecycleError where
  | campaignNotFound
  | permissionDenied
  | notDeleted
  | storage (msg : String)
deriving Repr, DecidableEq

/-- Primary-key lookup of a campaign row, modelling `tx.First(c, id)` /
`tx.Unscoped().First(c, id)`: the record is found whether or not it is
trashed (the functions below test `IsDeleted` themselves). -/
def DB.findCampaign (db : DB) (campaignID : Int) : Option Campaign :=
  db.campaigns.find? (fun c => c.id == campaignID)

/-- Models `tx.Save(c)`: replace the row with the same primary key. -/
def DB.saveCampaign (db : DB) (c : Campaign) : DB :=
  { db with campaigns := db.campaigns.map (fun x => if x.id == c.id then c else x) }

/-- Models `tx.Create(audit)`: append to the audit ledger. -/
def DB.addAudit (db : DB) (a : AuditLog) : DB :=
  { db with auditLog := db.auditLog ++ [a] }

/-- `SoftDeleteCampaign(campaignID, userID, reason)` from
`models/campaign_trash.go`: lock and load the row, check ownership, treat an
already-trashed row as an idempotent success, snapshot the status (forcing
Queued/InProgress to Complete), stamp the soft-delete fields, bump the
version, save, and write a best-effort audit entry (an audit failure does
not roll the transaction back).  `now` stands for `time.Now().UTC()`. -/
def SoftDeleteCampaign (campaignID userID : Int) (reason : String) (now : Int)
    (f : Faults) (db : DB) : Except LifecycleError Unit × DB :=
  match db.findCampaign campaignID with
  | none => (.error .campaignNotFound, db)
  | some c =>
    if c.userId ≠ userID then
      (.error .permissionDenied, db)
    else if c.IsDeleted then
      (.ok (), db)
    else
      let c1 :=
        if c.status = .inProgress ∨ c.status = .queued then
          { c with statusBeforeDelete := some c.status, status := .complete }
        else
          { c with statusBeforeDelete := some c.status }
      let c2 := { c1 with
        deletedAt := some now
        deletedBy := some userID
        deleteReason := reason
        version := c1.version + 1 }
      if f.saveFails then
        (.error (.storage "save failed"), db)
      else
        let db1 := db.saveCampaign c2
        let audit : AuditLog :=
          { actorId := some userID
            action := AuditCampaignSoftDeleted
            entityType := "campaign"
            entityId := campaignID
            metadata :=
              [("name", c2.name), ("status_before", reprStr c2.statusBeforeDelete),
               ("reason", reason), ("campaign_type", c2.campaignType)] }
        let db2 := if f.auditCreateFails then db1 else db1.addAudit audit
        if f.commitFails then
          (.error (.storage "commit failed"), db)
        else
          (.ok (), db2)

/-- `RestoreResult` from `models/campaign_trash.go`. -/
structure RestoreResult where
  success : Bool
  campaign : Option Campaign
  nameChanged : Bool
  oldName : String
  newName : String
  warnings : List String
deriving Repr, DecidableEq

/-- Stand-in for the SQL `LOWER()` applied on both sides of the name
comparison: character-wise lower-casing. -/
def sqlLower (s : String) : String :=
  String.mk (s.data.map Char.toLower)

/-- `checkNameConflict(tx, name, userID, excludeID)`: does another active
campaign of the same owner carry the same name (case-insensitive)?  The
fallibility of the underlying `Count` query is handled at the call sites
via `Faults.countFails`. -/
def checkNameConflict (db : DB) (name : String) (userID excludeID : Int) : Bool :=
  db.campaigns.any (fun c =>
    c.userId == userID && sqlLower c.name == sqlLower name &&
    c.deletedAt == none && c.id != excludeID)

/-- Stand-in for Go `time.Now().Format("2006-01-02 15:04")` (minute
granularity), rendering the abstract timestamp at minute resolution. -/
def formatMinute (t : Int) : String := toString (t / 60)

/-- Stand-in for Go `time.Now().Format("2006-01-02")` (day granularity). -/
def formatDate (t : Int) : String := toString (t / 86400)

/-- First rename attempt on a restore name conflict:
`fmt.Sprintf("%s (Restored %s)", name, time.Now().Format("2006-01-02 15:04"))`. -/
def restoredMinuteName (orig : String) (now : Int) : String :=
  orig ++ " (Restored " ++ formatMinute now ++ ")"

/-- Retry rename with a numeric disambiguator:
`fmt.Sprintf("%s (Restored %s-%d)", originalName, time.Now().Format("2006-01-02"), i)`. -/
def restoredRetryName (orig : String) (now : Int) (i : Nat) : String :=
  orig ++ " (Restored " ++ formatDate now ++ "-" ++ toString i ++ ")"

/-- The bounded retry loop `for i := 1; i < 10; i++` of `RestoreCampaign`:
while the current candidate name still conflicts, replace it by the numeric
retry name for index `i` and continue; `fuel` counts the remaining
iterations (the loop runs for `i = 1..9`, so it is entered with fuel 9 and
may leave a still-conflicting name, exactly as the Go code can). -/
def renameRetryLoop (check : String → Bool) (orig : String) (now : Int) :
    Nat → Nat → String → String
  | 0, _, cur => cur
  | fuel + 1, i, cur =>
    if check cur then
      renameRetryLoop check orig now fuel (i + 1) (restoredRetryName orig now i)
    else
      cur

/-- The whole conflict-resolution step of `RestoreCampaign` (lines 186-204):
returns the name the campaign will be saved under. -/
def resolveRestoreName (db : DB) (userID campaignID : Int) (orig : String)
    (now : Int) : String :=
  renameRetryLoop (fun n => checkNameConflict db n userID campaignID) orig now
    9 1 (restoredMinuteName orig now)

/-- `RestoreCampaign(campaignID, userID)` from `models/campaign_trash.go`:
lock and load the row (Unscoped, so trashed rows are found), check
ownership, fail with `NotDeleted` on an active row, resolve name conflicts
against other active campaigns of the owner (bounded rename retry), clear
the soft-delete fields, stamp the restore fields, force status to Created,
bump the version, save, write a best-effort audit entry, and commit. -/
def RestoreCampaign (campaignID userID : Int) (now : Int)
    (f : Faults) (db : DB) : Except LifecycleError RestoreResult × DB :=
  match db.findCampaign campaignID with
  | none => (.error .campaignNotFound, db)
  | some c =>
    if c.userId ≠ userID then
      (.error .permissionDenied, db)
    else if ¬ c.IsDeleted then
      (.error .notDeleted, db)
    else if f.countFails then
      (.error (.storage "count failed"), db)
    else
      let hasConflict := checkNameConflict db c.name userID campaignID
      let originalName := c.name
      let newName :=
        if hasConflict then resolveRestoreName db userID campaignID originalName now
        else originalName
      let warnings :=
        if hasConflict then
          ["Campaign renamed from " ++ originalName ++ " to " ++ newName ++
           " due to name conflict"]
        else []
      let c1 := { c with
        name := newName
        deletedAt := none
        deletedBy := none
        restoredAt := some now
        restoredBy := some userID
        status := .created
        version := c.version + 1 }
      if f.saveFails then
        (.error (.storage "save failed"), db)
      else
        let db1 := db.saveCampaign c1
        let audit : AuditLog :=
          { actorId := some userID
            action := AuditCampaignRestored
            entityType := "campaign"
            entityId := campaignID
            metadata :=
              [("name", c1.name), ("original_name", originalName),
               ("name_changed", toString hasConflict),
               ("warnings", toString warnings)] }
        let db2 := if f.auditCreateFails then db1 else db1.addAudit audit
        let result : RestoreResult :=
          { success := true
            campaign := some c1
            nameChanged := hasConflict
            oldName := if hasConflict then originalName else ""
            newName := if hasConflict then newName else ""
            warnings := warnings }
        if f.commitFails then
          (.error (.storage "commit failed"), db)
        else
          (.ok result, db2)

/-- The cascade-deletion block shared verbatim by `PurgeCampaign` and
`PurgeSystemCampaign` (steps 1-5): calendar events joined through the
campaign's results (best-effort: on failure the rows stay and the purge
continues), then events, results, campaign-group associations, and the
campaign row itself, each of which aborts the transaction on failure.
The calendar-event join reads `db.results` before the results are deleted,
which is exactly why the fixed order matters. -/
def cascadeDelete (campaignID : Int) (f : Faults) (db : DB) :
    Except LifecycleError DB :=
  let db1 :=
    if f.deleteCalendarEventsFails then db
    else { db with calendarEvents := db.calendarEvents.filter (fun ce =>
      !(db.results.any (fun r => r.campaignId == campaignID && r.id == ce.resultId))) }
  if f.deleteEventsFails then
    .error (.storage "delete events failed")
  else
    let db2 := { db1 with events := db1.events.filter (fun e => e.campaignId != campaignID) }
    if f.deleteResultsFails then
      .error (.storage "delete results failed")
    else
      let db3 := { db2 with results := db2.results.filter (fun r => r.campaignId != campaignID) }
      if f.deleteCampaignGroupsFails then
        .error (.storage "delete campaign_groups failed")
      else
        let db4 := { db3 with campaignGroups :=
          db3.campaignGroups.filter (fun g => g.campaignId != campaignID) }
        if f.deleteCampaignFails then
          .error (.storage "delete campaign failed")
        else
          .ok { db4 with campaigns := db4.campaigns.filter (fun c => c.id != campaignID) }

/-- `PurgeCampaign(campaignID, userID, isAdmin)` from
`models/campaign_trash.go`: the interactive hard delete.  Requires the
admin flag (before any transaction), requires the row to be trashed, writes
the audit entry before any destructive deletion (its failure aborts the
purge), then runs the cascade deletion; any required-step failure rolls the
whole transaction back. -/
def PurgeCampaign (campaignID userID : Int) (isAdmin : Bool)
    (f : Faults) (db : DB) : Except LifecycleError Unit × DB :=
  if ¬ isAdmin then
    (.error (.storage "purge requires admin privileges"), db)
  else
    match db.findCampaign campaignID with
    | none => (.error .campaignNotFound, db)
    | some c =>
      if ¬ c.IsDeleted then
        (.error (.storage "can only purge campaigns in trash"), db)
      else
        let audit : AuditLog :=
          { actorId := some userID
            action := AuditCampaignPurged
            entityType := "campaign"
            entityId := campaignID
            metadata :=
              [("name", c.name), ("deleted_at", reprStr c.deletedAt),
               ("user_id", toString c.userId)] }
        if f.auditCreateFails then
          (.error (.storage "failed to create audit log"), db)
        else
          match cascadeDelete campaignID f (db.addAudit audit) with
          | .error e => (.error e, db)
          | .ok db2 =>
            if f.commitFails then
              (.error (.storage "commit failed"), db)
            else
              (.ok (), db2)

/-- `PurgeSystemCampaign(campaignID)` from `models/campaign_trash.go`: the
TTL-job hard delete.  Bypasses the per-user ownership check, treats a
missing row (already purged) and an active row (restored meanwhile) as
benign no-ops, writes the system-actor audit entry before any destructive
deletion (its failure aborts the purge), then runs the cascade deletion
with full rollback on any required-step failure. -/
def PurgeSystemCampaign (campaignID : Int)
    (f : Faults) (db : DB) : Except LifecycleError Unit × DB :=
  match db.findCampaign campaignID with
  | none => (.ok (), db)
  | some c =>
    if ¬ c.IsDeleted then
      (.ok (), db)
    else
      let audit : AuditLog :=
        { actorId := none
          actorName := "system:trash-ttl"
          action := AuditCampaignPurged
          entityType := "campaign"
          entityId := campaignID
          metadata :=
            [("name", c.name), ("deleted_at", reprStr c.deletedAt),
             ("user_id", toString c.userId), ("purge_type", "ttl_job")] }
      if f.auditCreateFails then
        (.error (.storage "failed to create audit log"), db)
      else
        match cascadeDelete campaignID f (db.addAudit audit) with
        | .error e => (.error e, db)
        | .ok db2 =>
          if f.commitFails then
            (.error (.storage "commit failed"), db)
          else
            (.ok (), db2)

/-- Sort key for the retention query (`ORDER BY deleted_at ASC`); the query
filters on `deleted_at IS NOT NULL` first, so the default is never used on
a selected row. -/
def purgeKey (c : Campaign) : Int :=
  c.deletedAt.getD 0

/-- Is the row eligible for auto-purge at the given cutoff
(`deleted_at IS NOT NULL AND deleted_at < cutoff`)? -/
def purgeEligible (cutoff : Int) (c : Campaign) : Bool :=
  match c.deletedAt with
  | some t => decide (t < cutoff)
  | none => false

/-- Ordered insertion by `deleted_at`, used to model the SQL
`ORDER BY deleted_at ASC`. -/
def insertByDeletedAt (c : Campaign) : List Campaign → List Campaign
  | [] => [c]
  | d :: rest =>
    if purgeKey c ≤ purgeKey d then c :: d :: rest
    else d :: insertByDeletedAt c rest

/-- Insertion sort by `deleted_at` ascending. -/
def sortByDeletedAt : List Campaign → List Campaign
  | [] => []
  | c :: rest => insertByDeletedAt c (sortByDeletedAt rest)

/-- The rows the retention query would return, in order, before plucking
ids and applying the limit. -/
def purgeCandidateRows (db : DB) (cutoff : Int) : List Campaign :=
  sortByDeletedAt (db.campaigns.filter (purgeEligible cutoff))

/-- `ListPurgeCandidates(cutoff, limit)` from `models/campaign_trash.go`:
ids of trashed campaigns with `deleted_at` strictly before the cutoff,
oldest `deleted_at` first, at most `limit` of them. -/
def ListPurgeCandidates (cutoff : Int) (limit : Nat) (db : DB) : List Int :=
  (((purgeCandidateRows db cutoff).map Campaign.id).take limit)

/-- `TrashTTLConfig` from `worker/trash_ttl.go`; the interval is in
seconds. -/
structure TrashTTLConfig where
  retentionDays : Int
  interval : Int
  batchSize : Int
  enabled : Bool
deriving Repr, DecidableEq

/-- The `TrashTTLJob` state after `NewTrashTTLJob` applied the defaults, so
the numeric fields are positive by construction. -/
structure TrashTTLJob where
  retentionDays : Int
  interval : Int
  batchSize : Nat
  enabled : Bool
deriving Repr, DecidableEq

/-- `NewTrashTTLJob(config)`: non-positive numbers fall back to the
defaults (90 days, 1 hour, batch 100). -/
def NewTrashTTLJob (config : TrashTTLConfig) : TrashTTLJob :=
  { retentionDays := if config.retentionDays ≤ 0 then 90 else config.retentionDays
    interval := if config.interval ≤ 0 then 3600 else config.interval
    batchSize := if config.batchSize ≤ 0 then 100 else config.batchSize.toNat
    enabled := config.enabled }

/-- The per-candidate loop of `TrashTTLJob.RunOnce`: before each candidate
the context is polled (`cancelAt = some k` means `ctx.Done()` is closed
from the `k`-th candidate on, in which case the loop returns `ctx.Err()`
with the batch abandoned); otherwise `PurgeSystemCampaign` runs and a
failure only bumps the error counter and moves on.  `faultsFor` injects
per-campaign storage faults.  Returns the loop outcome, the database, and
the success and error counters. -/
def ttlLoop (faultsFor : Int → Faults) (cancelAt : Option Nat) :
    List Int → Nat → DB → Nat → Nat →
    Except LifecycleError Unit × DB × Nat × Nat
  | [], _, db, s, e => (.ok (), db, s, e)
  | id :: rest, i, db, s, e =>
    if (cancelAt.map (fun k => decide (k ≤ i))).getD false then
      (.error (.storage "context canceled"), db, s, e)
    else
      match PurgeSystemCampaign id (faultsFor id) db with
      | (.ok _, db1) => ttlLoop faultsFor cancelAt rest (i + 1) db1 (s + 1) e
      | (.error _, db1) => ttlLoop faultsFor cancelAt rest (i + 1) db1 s (e + 1)

/-- `TrashTTLJob.RunOnce(ctx)` from `worker/trash_ttl.go`: compute the
cutoff `now − retentionDays` days, list up to `batchSize` candidates,
return immediately when there are none, otherwise purge each candidate in
order (isolating per-campaign failures) and report an error exactly when
every candidate failed. -/
def TrashTTLJob.RunOnce (j : TrashTTLJob) (now : Int)
    (faultsFor : Int → Faults) (cancelAt : Option Nat) (db : DB) :
    Except LifecycleError Unit × DB :=
  let cutoff := now - j.retentionDays * 86400
  let candidateIDs := ListPurgeCandidates cutoff j.batchSize db
  if candidateIDs.isEmpty then
    (.ok (), db)
  else
    match ttlLoop faultsFor cancelAt candidateIDs 0 db 0 0 with
    | (.error err, db1, _, _) => (.error err, db1)
    | (.ok _, db1, s, e) =>
      if 0 < e ∧ s = 0 then
        (.error (.storage "all purge operations failed"), db1)
      else
        (.ok (), db1)

/-- The per-candidate loop of `RunOnce` restated without the index and the
cancellation poll (which, with no cancellation, never fires): the final
database together with the success and error counters. -/
def ttlBatchStats (faultsFor : Int → Faults) : List Int → DB → DB × Nat × Nat
  | [], db => (db, 0, 0)
  | id :: rest, db =>
    match PurgeSystemCampaign id (faultsFor id) db with
    | (.ok _, db1) =>
      let r := ttlBatchStats faultsFor rest db1
      (r.1, r.2.1 + 1, r.2.2)
    | (.error _, db1) =>
      let r := ttlBatchStats faultsFor rest db1
      (r.1, r.2.1, r.2.2 + 1)

/-- The `stopChan` of a `TrashTTLJob`, as a Go channel that can be closed
at most once. -/
structure StopChan where
  closed : Bool
deriving Repr, DecidableEq

/-- A Go runtime panic reachable from the scheduler code. -/
inductive GoPanic where
  | closeOfClosedChannel
deriving Repr, DecidableEq

/-- The Go builtin `close(ch)`: marks the channel closed, and panics when
the channel is already closed. -/
def goCloseChan (ch : StopChan) : Except GoPanic StopChan :=
  if ch.closed then .error .closeOfClosedChannel
  else .ok { closed := true }

/-- The `case <-ctx.Done():` arm of the `TrashTTLJob.Start` loop
(`close(j.stopChan); return`): when the start context is cancelled the
background loop closes the stop channel itself before exiting. -/
def ttlLoopExitOnCtxCancel (ch : StopChan) : Except GoPanic StopChan :=
  goCloseChan ch

/-- `TrashTTLJob.Stop()` (`close(j.stopChan)`), with Go's channel-close
semantics. -/
def TrashTTLStop (ch : StopChan) : Except GoPanic StopChan :=
  goCloseChan ch

/-- The freshly made `stopChan` of `NewTrashTTLJob`. -/
def newStopChan : StopChan := { closed := false }

/-! ### Concrete instances used by the witnesses -/

/-- An active queued campaign, id 1, owned by user 1. -/
def exActive : Campaign :=
  { id := 1, userId := 1, name := "Q4 Drive", status := .queued, campaignType := "email" }

/-- A trashed campaign, id 1, owned by user 1, deleted at time 100. -/
def exTrashed : Campaign :=
  { id := 1, userId := 1, name := "Q4 Drive", status := .complete,
    campaignType := "email", deletedAt := some 100, deletedBy := some 1,
    statusBeforeDelete := some .queued, deleteReason := "cleanup", version := 1 }

/-- A database holding the active campaign together with child rows of both
campaign 1 and an unrelated campaign 2. -/
def exDBActive : DB :=
  { campaigns := [exActive]
    events := [⟨10, 1⟩, ⟨11, 2⟩]
    results := [⟨20, 1⟩, ⟨21, 2⟩]
    calendarEvents := [⟨30, 20⟩, ⟨31, 21⟩]
    campaignGroups := [⟨1, 7⟩, ⟨2, 7⟩]
    auditLog := [] }

/-- The same database with campaign 1 already in the trash. -/
def exDBTrash : DB :=
  { campaigns := [exTrashed]
    events := [⟨10, 1⟩, ⟨11, 2⟩]
    results := [⟨20, 1⟩, ⟨21, 2⟩]
    calendarEvents := [⟨30, 20⟩, ⟨31, 21⟩]
    campaignGroups := [⟨1, 7⟩, ⟨2, 7⟩]
    auditLog := [] }

/-- An active campaign of the same owner whose name collides
case-insensitively with `exTrashed.name`. -/
def exActiveLower : Campaign :=
  { id := 2, userId := 1, name := "q4 drive", status := .created, campaignType := "email" }

/-- A database where restoring the trashed "Q4 Drive" collides with the
active "q4 drive" of the same owner. -/
def exDBConflict : DB :=
  { campaigns := [exTrashed, exActiveLower]
    events := []
    results := []
    calendarEvents := []
    campaignGroups := []
    auditLog := [] }

/-- Trashed campaign deleted 100 days before the example cycle time. -/
def exRetA : Campaign :=
  { id := 1, userId := 1, name := "A", status := .complete, campaignType := "email",
    deletedAt := some 8640000, deletedBy := some 1, version := 1 }

/-- Trashed campaign deleted 91 days before the example cycle time. -/
def exRetB : Campaign :=
  { id := 2, userId := 1, name := "B", status := .complete, campaignType := "email",
    deletedAt := some 9417600, deletedBy := some 1, version := 1 }

/-- Trashed campaign deleted only 10 days before the example cycle time. -/
def exRetC : Campaign :=
  { id := 3, userId := 1, name := "C", status := .complete, campaignType := "email",
    deletedAt := some 16416000, deletedBy := some 1, version := 1 }

/-- The retention example database, stored in scrambled order so the query
ordering is exercised. -/
def exRetentionDB : DB :=
  { campaigns := [exRetC, exRetA, exRetB]
    events := []
    results := []
    calendarEvents := []
    campaignGroups := []
    auditLog := [] }

/-- The TTL job of the retention example (90-day retention, defaults
applied by the constructor). -/
def exTTLJob : TrashTTLJob :=
  NewTrashTTLJob { retentionDays := 90, interval := 3600, batchSize := 100, enabled := true }

end ChronoLure

namespace ChronoLure

/-! ### Helper lemmas -/

/-- Looking up the updated primary key after an update-by-primary-key
returns the updated row. -/
theorem find?_map_update (l : List Campaign) (campaignID : Int) (c c2 : Campaign)
    (h : l.find? (fun x => x.id == campaignID) = some c) (hid : c2.id = c.id) :
    (l.map (fun x => if x.id == c2.id then c2 else x)).find?
      (fun x => x.id == campaignID) = some c2 := by
  induction l with
  | nil => simp at h
  | cons x xs ih =>
    by_cases hx : x.id = campaignID
    · rw [List.find?_cons_of_pos _ (by simp [hx])] at h
      have hxc : x = c := by injection h
      subst hxc
      have hhead : (if x.id == c2.id then c2 else x) = c2 := by
        simp [hid, hx]
      simp only [List.map_cons, hhead]
      rw [List.find?_cons_of_pos _ (by simp [hid, hx])]
    · rw [List.find?_cons_of_neg _ (by simp [hx])] at h
      have hc : c.id = campaignID := by
        have := List.find?_some h
        simpa using this
      have hhead : (if x.id == c2.id then c2 else x) = x := by
        simp [hid, hc, hx]
      simp only [List.map_cons, hhead]
      rw [List.find?_cons_of_neg _ (by simp [hx])]
      exact ih h

/-- `DB` version of `find?_map_update`: after `saveCampaign c2` the lookup
of the same primary key yields `c2`. -/
theorem findCampaign_saveCampaign (db : DB) (campaignID : Int) (c c2 : Campaign)
    (h : db.findCampaign campaignID = some c) (hid : c2.id = c.id) :
    (db.saveCampaign c2).findCampaign campaignID = some c2 :=
  find?_map_update db.campaigns campaignID c c2 h hid

/-- Appending an audit entry does not change campaign lookups. -/
theorem findCampaign_addAudit (db : DB) (a : AuditLog) (campaignID : Int) :
    (db.addAudit a).findCampaign campaignID = db.findCampaign campaignID := rfl

/-- An update-by-primary-key changes nothing about a row-existence query
whose predicate rejects both the new row and every row sharing its id. -/
theorem any_map_update (l : List Campaign) (c2 : Campaign) (q : Campaign → Bool)
    (hq : q c2 = false)
    (hsame : ∀ x ∈ l, x.id = c2.id → q x = false) :
    (l.map (fun x => if x.id == c2.id then c2 else x)).any q = l.any q := by
  induction l with
  | nil => rfl
  | cons x xs ih =>
    have htail : (xs.map (fun x => if x.id == c2.id then c2 else x)).any q = xs.any q :=
      ih (fun y hy => hsame y (List.mem_cons_of_mem x hy))
    by_cases hx : x.id = c2.id
    · simp only [List.map_cons, List.any_cons, hx, beq_self_eq_true, if_true, htail, hq,
        hsame x (List.mem_cons_self x xs) hx]
    · have : (x.id == c2.id) = false := by simp [hx]
      simp only [List.map_cons, List.any_cons, this, Bool.false_eq_true, if_false, htail]

/-- Saving a campaign whose id is the excluded id does not change the
outcome of the restore name-conflict check. -/
theorem checkNameConflict_saveCampaign (db : DB) (c2 : Campaign) (name : String)
    (userID excludeID : Int) (hid : c2.id = excludeID) :
    checkNameConflict (db.saveCampaign c2) name userID excludeID =
      checkNameConflict db name userID excludeID := by
  unfold checkNameConflict DB.saveCampaign
  apply any_map_update
  · simp [hid]
  · intro x _ hx
    simp [hx, hid]

/-- A successful primary-key lookup returns a row carrying that key. -/
theorem findCampaign_id (db : DB) (campaignID : Int) (c : Campaign)
    (h : db.findCampaign campaignID = some c) : c.id = campaignID := by
  have := List.find?_some h
  simpa using this

/-- The success shape of `SoftDeleteCampaign` without faults on an active
owned campaign: one saved row, one appended audit entry, and the
characterisation of the saved row's fields. -/
theorem softDelete_success_shape (db : DB) (campaignID userID : Int)
    (reason : String) (now : Int) (c : Campaign)
    (hfind : db.findCampaign campaignID = some c)
    (hown : c.userId = userID)
    (hactive : c.deletedAt = none) :
    ∃ c2 a, SoftDeleteCampaign campaignID userID reason now noFaults db =
      (.ok (), (db.saveCampaign c2).addAudit a) ∧
      c2.id = c.id ∧ c2.userId = c.userId ∧ c2.name = c.name ∧
      c2.campaignType = c.campaignType ∧ c2.deletedAt = some now ∧
      c2.deletedBy = some userID ∧ c2.version = c.version + 1 := by
  unfold SoftDeleteCampaign
  rw [hfind]
  by_cases hst : c.status = .inProgress ∨ c.status = .queued
  · refine ⟨{ c with
      statusBeforeDelete := some c.status
      status := .complete
      deletedAt := some now
      deletedBy := some userID
      deleteReason := reason
      version := c.version + 1 },
      { actorId := some userID
        action := AuditCampaignSoftDeleted
        entityType := "campaign"
        entityId := campaignID
        metadata := [("name", c.name), ("status_before", reprStr (some c.status)),
          ("reason", reason), ("campaign_type", c.campaignType)] },
      ?_, rfl, rfl, rfl, rfl, rfl, rfl, rfl⟩
    simp [hown, Campaign.IsDeleted, hactive, hst, noFaults]
  · refine ⟨{ c with
      statusBeforeDelete := some c.status
      deletedAt := some now
      deletedBy := some userID
      deleteReason := reason
      version := c.version + 1 },
      { actorId := some userID
        action := AuditCampaignSoftDeleted
        entityType := "campaign"
        entityId := campaignID
        metadata := [("name", c.name), ("status_before", reprStr (some c.status)),
          ("reason", reason), ("campaign_type", c.campaignType)] },
      ?_, rfl, rfl, rfl, rfl, rfl, rfl, rfl⟩
    simp [hown, Campaign.IsDeleted, hactive, hst, noFaults]

/-- The success shape of `RestoreCampaign` without faults on a trashed
owned campaign whose name does not conflict: the row is saved with the
restore fields set and the name untouched, one audit entry is appended,
and the outcome reports no rename and no warnings. -/
theorem restore_success_shape (db : DB) (campaignID userID : Int)
    (now : Int) (c : Campaign)
    (hfind : db.findCampaign campaignID = some c)
    (hown : c.userId = userID)
    (ht : c.IsDeleted = true)
    (hconf : checkNameConflict db c.name userID campaignID = false) :
    ∃ c3 a, RestoreCampaign campaignID userID now noFaults db =
      (.ok { success := true, campaign := some c3, nameChanged := false,
             oldName := "", newName := "", warnings := [] },
       (db.saveCampaign c3).addAudit a) ∧
      c3.id = c.id ∧ c3.userId = c.userId ∧ c3.name = c.name ∧
      c3.campaignType = c.campaignType ∧ c3.status = .created ∧
      c3.deletedAt = none ∧ c3.deletedBy = none ∧
      c3.restoredAt = some now ∧ c3.restoredBy = some userID ∧
      c3.version = c.version + 1 := by
  unfold RestoreCampaign
  rw [hfind]
  refine ⟨{ c with
    name := c.name
    deletedAt := none
    deletedBy := none
    restoredAt := some now
    restoredBy := some userID
    status := .created
    version := c.version + 1 },
    { actorId := some userID
      action := AuditCampaignRestored
      entityType := "campaign"
      entityId := campaignID
      metadata := [("name", c.name), ("original_name", c.name),
        ("name_changed", toString false), ("warnings", toString ([] : List String))] },
    ?_, rfl, rfl, rfl, rfl, rfl, rfl, rfl, rfl, rfl, rfl⟩
  simp [hown, ht, hconf, noFaults]

/-- Any output of the bounded rename-retry loop is either its input name or
one of the numeric retry names whose index lies between the starting index
and the fuel bound. -/
theorem renameRetryLoop_shape (check : String → Bool) (orig : String) (now : Int)
    (fuel i : Nat) (cur : String) :
    renameRetryLoop check orig now fuel i cur = cur ∨
    ∃ j, i ≤ j ∧ j < i + fuel ∧
      renameRetryLoop check orig now fuel i cur = restoredRetryName orig now j := by
  induction fuel generalizing i cur with
  | zero => exact Or.inl rfl
  | succ fuel ih =>
    unfold renameRetryLoop
    by_cases h : check cur = true
    · simp only [h, if_true]
      rcases ih (i + 1) (restoredRetryName orig now i) with h1 | ⟨j, hj1, hj2, hj3⟩
      · exact Or.inr ⟨i, Nat.le_refl i, by omega, h1⟩
      · exact Or.inr ⟨j, by omega, by omega, hj3⟩
    · simp only [Bool.not_eq_true] at h
      simp only [h, Bool.false_eq_true, if_false]
      exact Or.inl trivial

/-- The name produced by the conflict-resolution step of `RestoreCampaign`
is the timestamp-suffixed name or one of the at most 9 numeric retry
names. -/
theorem resolveRestoreName_shape (db : DB) (userID campaignID : Int)
    (orig : String) (now : Int) :
    resolveRestoreName db userID campaignID orig now = restoredMinuteName orig now ∨
    ∃ j, 1 ≤ j ∧ j ≤ 9 ∧
      resolveRestoreName db userID campaignID orig now = restoredRetryName orig now j := by
  rcases renameRetryLoop_shape
      (fun n => checkNameConflict db n userID campaignID) orig now 9 1
      (restoredMinuteName orig now) with h | ⟨j, hj1, hj2, hj3⟩
  · exact Or.inl h
  · exact Or.inr ⟨j, hj1, by omega, hj3⟩

/-- Membership in an ordered insertion. -/
theorem mem_insertByDeletedAt (c a : Campaign) (l : List Campaign) :
    a ∈ insertByDeletedAt c l ↔ a = c ∨ a ∈ l := by
  induction l with
  | nil => simp [insertByDeletedAt]
  | cons d rest ih =>
    unfold insertByDeletedAt
    by_cases h : purgeKey c ≤ purgeKey d
    · simp [h]
    · simp only [h, if_false]
      simp [ih]
      tauto

/-- Ordered insertion preserves sortedness by `deleted_at`. -/
theorem pairwise_insertByDeletedAt (c : Campaign) (l : List Campaign)
    (hl : l.Pairwise (fun a b => purgeKey a ≤ purgeKey b)) :
    (insertByDeletedAt c l).Pairwise (fun a b => purgeKey a ≤ purgeKey b) := by
  induction l with
  | nil => simp [insertByDeletedAt]
  | cons d rest ih =>
    rcases List.pairwise_cons.mp hl with ⟨hd, hrest⟩
    unfold insertByDeletedAt
    by_cases h : purgeKey c ≤ purgeKey d
    · rw [if_pos h]
      refine List.pairwise_cons.mpr ⟨?_, hl⟩
      intro b hb
      rcases List.mem_cons.mp hb with rfl | hb
      · exact h
      · exact le_trans h (hd b hb)
    · rw [if_neg h]
      refine List.pairwise_cons.mpr ⟨?_, ih hrest⟩
      intro b hb
      rcases (mem_insertByDeletedAt c b rest).mp hb with rfl | hb
      · exact le_of_not_le h
      · exact hd b hb

/-- The insertion sort by `deleted_at` is sorted. -/
theorem sortByDeletedAt_sorted (l : List Campaign) :
    (sortByDeletedAt l).Pairwise (fun a b => purgeKey a ≤ purgeKey b) := by
  induction l with
  | nil => simp [sortByDeletedAt]
  | cons c rest ih => exact pairwise_insertByDeletedAt c _ ih

/-- Sorting by `deleted_at` neither adds nor drops rows. -/
theorem mem_sortByDeletedAt (a : Campaign) (l : List Campaign) :
    a ∈ sortByDeletedAt l ↔ a ∈ l := by
  induction l with
  | nil => simp [sortByDeletedAt]
  | cons c rest ih =>
    unfold sortByDeletedAt
    rw [mem_insertByDeletedAt, ih]
    simp

/-- With no cancellation, the `RunOnce` loop never aborts: it visits every
candidate and returns the fold of the system purge over the whole batch
together with the success/error counters. -/
theorem ttlLoop_none (faultsFor : Int → Faults) (l : List Int) :
    ∀ (i : Nat) (db : DB) (s e : Nat),
      ttlLoop faultsFor none l i db s e =
        (.ok (), (ttlBatchStats faultsFor l db).1,
         s + (ttlBatchStats faultsFor l db).2.1,
         e + (ttlBatchStats faultsFor l db).2.2) := by
  induction l with
  | nil => intro i db s e; simp [ttlLoop, ttlBatchStats]
  | cons id rest ih =>
    intro i db s e
    unfold ttlLoop ttlBatchStats
    simp only [Option.map_none, Option.getD_none, Bool.false_eq_true, if_false]
    cases h : PurgeSystemCampaign id (faultsFor id) db with
    | mk r db1 =>
      cases r with
      | ok u =>
        simp only [ih (i + 1) db1 (s + 1) e]
        refine congrArg (fun n => (Except.ok (), (ttlBatchStats faultsFor rest db1).1,
          n, e + (ttlBatchStats faultsFor rest db1).2.2)) ?_
        omega
      | error err =>
        simp only [ih (i + 1) db1 s (e + 1)]
        refine congrArg (fun n => (Except.ok (), (ttlBatchStats faultsFor rest db1).1,
          s + (ttlBatchStats faultsFor rest db1).2.1, n)) ?_
        omega

/-- The final database of the batch loop is the left fold of the system
purge over the candidate list. -/
theorem ttlBatchStats_fst_foldl (faultsFor : Int → Faults) (l : List Int) :
    ∀ db : DB, (ttlBatchStats faultsFor l db).1 =
      l.foldl (fun d id => (PurgeSystemCampaign id (faultsFor id) d).2) db := by
  induction l with
  | nil => intro db; rfl
  | cons id rest ih =>
    intro db
    unfold ttlBatchStats
    cases h : PurgeSystemCampaign id (faultsFor id) db with
    | mk r db1 =>
      cases r with
      | ok u => simpa [h] using ih db1
      | error err => simpa [h] using ih db1

/-- Every candidate of the batch is resolved exactly once as a success or
an error. -/
theorem ttlBatchStats_count (faultsFor : Int → Faults) (l : List Int) :
    ∀ db : DB, (ttlBatchStats faultsFor l db).2.1 +
      (ttlBatchStats faultsFor l db).2.2 = l.length := by
  induction l with
  | nil => intro db; rfl
  | cons id rest ih =>
    intro db
    unfold ttlBatchStats
    cases h : PurgeSystemCampaign id (faultsFor id) db with
    | mk r db1 =>
      cases r with
      | ok u => simp only []; have := ih db1; simp only [List.length_cons]; omega
      | error err => simp only []; have := ih db1; simp only [List.length_cons]; omega

/-- If any required cascade step is set to fail, `cascadeDelete` reports a
storage error (whatever else is set to fail). -/
theorem cascadeDelete_error (campaignID : Int) (f : Faults) (db : DB)
    (hreq : f.deleteEventsFails = true ∨ f.deleteResultsFails = true ∨
      f.deleteCampaignGroupsFails = true ∨ f.deleteCampaignFails = true) :
    ∃ msg, cascadeDelete campaignID f db = .error (.storage msg) := by
  unfold cascadeDelete
  by_cases h1 : f.deleteEventsFails = true
  · exact ⟨"delete events failed", by simp [h1]⟩
  · simp only [Bool.not_eq_true] at h1
    by_cases h2 : f.deleteResultsFails = true
    · exact ⟨"delete results failed", by simp [h1, h2]⟩
    · simp only [Bool.not_eq_true] at h2
      by_cases h3 : f.deleteCampaignGroupsFails = true
      · exact ⟨"delete campaign_groups failed", by simp [h1, h2, h3]⟩
      · simp only [Bool.not_eq_true] at h3
        by_cases h4 : f.deleteCampaignFails = true
        · exact ⟨"delete campaign failed", by simp [h1, h2, h3, h4]⟩
        · simp only [Bool.not_eq_true] at h4
          rw [h1, h2, h3, h4] at hreq
          simp at hreq

/-! ### Theorems -/

/-- C6: when soft-delete succeeds on an active campaign, the saved row
snapshots the prior status into `status_before_delete`, forces
Queued/InProgress to Complete (leaving any other status unchanged), stamps
`deleted_at`/`deleted_by`/`delete_reason`, and increments the version by
exactly one, while the identity fields are untouched. -/
theorem softDelete_field_updates (db : DB) (campaignID userID : Int)
    (reason : String) (now : Int) (c : Campaign)
    (hfind : db.findCampaign campaignID = some c)
    (hown : c.userId = userID)
    (hactive : c.deletedAt = none) :
    ∃ c2 a,
      SoftDeleteCampaign campaignID userID reason now noFaults db =
        (.ok (), (db.saveCampaign c2).addAudit a) ∧
      c2.statusBeforeDelete = some c.status ∧
      c2.status = (if c.status = .queued ∨ c.status = .inProgress then
        CampaignStatus.complete else c.status) ∧
      c2.deletedAt = some now ∧
      c2.deletedBy = some userID ∧
      c2.deleteReason = reason ∧
      c2.version = c.version + 1 ∧
      c2.id = c.id ∧ c2.userId = c.userId ∧ c2.name = c.name ∧
      c2.campaignType = c.campaignType ∧
      a.action = AuditCampaignSoftDeleted := by
  unfold SoftDeleteCampaign
  rw [hfind]
  cases hst : c.status <;>
    simp [hown, Campaign.IsDeleted, hactive, noFaults, hst] <;>
    exact ⟨_, _, rfl, rfl, rfl, rfl, rfl, rfl, rfl, rfl, rfl, rfl, rfl, rfl⟩

/-- Witness for C6 at the concrete queued campaign of `exDBActive`. -/
theorem softDelete_field_updates_witness :
    ∃ c2 a,
      SoftDeleteCampaign 1 1 "done" 500 noFaults exDBActive =
        (.ok (), (exDBActive.saveCampaign c2).addAudit a) ∧
      c2.statusBeforeDelete = some exActive.status ∧
      c2.status = (if exActive.status = .queued ∨ exActive.status = .inProgress then
        CampaignStatus.complete else exActive.status) ∧
      c2.deletedAt = some 500 ∧
      c2.deletedBy = some 1 ∧
      c2.deleteReason = "done" ∧
      c2.version = exActive.version + 1 ∧
      c2.id = exActive.id ∧ c2.userId = exActive.userId ∧ c2.name = exActive.name ∧
      c2.campaignType = exActive.campaignType ∧
      a.action = AuditCampaignSoftDeleted :=
  softDelete_field_updates exDBActive 1 1 "done" 500 exActive (by rfl) (by rfl) (by rfl)

/-- C10: the ownership check comes before the already-trashed idempotency
check in `SoftDeleteCampaign` and before the `NotDeleted` check in
`RestoreCampaign`: whatever the deletion state of the campaign, a
non-owning actor gets `PermissionDenied` (never the idempotent success,
never `NotDeleted`) and the database is unchanged. -/
theorem ownership_checked_before_idempotency (db : DB) (campaignID userID : Int)
    (reason : String) (now : Int) (f : Faults) (c : Campaign)
    (hfind : db.findCampaign campaignID = some c)
    (hown : c.userId ≠ userID) :
    SoftDeleteCampaign campaignID userID reason now f db =
      (.error .permissionDenied, db) ∧
    RestoreCampaign campaignID userID now f db =
      (.error .permissionDenied, db) := by
  unfold SoftDeleteCampaign RestoreCampaign
  rw [hfind]
  simp [hown]

/-- Witness for C10: the non-owner (user 2) is refused on the trashed
campaign (where the idempotent success would otherwise apply) and on the
active campaign (where `NotDeleted` would otherwise apply). -/
theorem ownership_checked_before_idempotency_witness :
    SoftDeleteCampaign 1 2 "r" 500 noFaults exDBTrash =
      (.error .permissionDenied, exDBTrash) ∧
    RestoreCampaign 1 2 500 noFaults exDBActive =
      (.error .permissionDenied, exDBActive) :=
  ⟨(ownership_checked_before_idempotency exDBTrash 1 2 "r" 500 noFaults exTrashed
      (by rfl) (by decide)).1,
   (ownership_checked_before_idempotency exDBActive 1 2 "r" 500 noFaults exActive
      (by rfl) (by decide)).2⟩

/-- C2: audit-write failure is tolerated asymmetrically.  If the audit
insert fails during an interactive or system purge of a trashed campaign,
the operation aborts with an error and the database — campaign and all
child rows — is exactly the input database (no deletion happened).  If the
audit insert fails during a soft-delete of an active owned campaign, the
soft-delete still commits: the row is saved with the soft-delete fields set
while the audit ledger is left untouched. -/
theorem audit_failure_tolerance_asymmetry
    (dbT dbA : DB) (idT idA userID : Int) (reason : String) (now t : Int)
    (cT cA : Campaign)
    (hfindT : dbT.findCampaign idT = some cT)
    (htrash : cT.deletedAt = some t)
    (hfindA : dbA.findCampaign idA = some cA)
    (hownA : cA.userId = userID)
    (hactive : cA.deletedAt = none) :
    PurgeCampaign idT userID true { auditCreateFails := true } dbT =
      (.error (.storage "failed to create audit log"), dbT) ∧
    PurgeSystemCampaign idT { auditCreateFails := true } dbT =
      (.error (.storage "failed to create audit log"), dbT) ∧
    ∃ c2,
      SoftDeleteCampaign idA userID reason now { auditCreateFails := true } dbA =
        (.ok (), dbA.saveCampaign c2) ∧
      c2.deletedAt = some now ∧
      c2.deletedBy = some userID ∧
      c2.version = cA.version + 1 ∧
      (dbA.saveCampaign c2).auditLog = dbA.auditLog := by
  refine ⟨?_, ?_, ?_⟩
  · unfold PurgeCampaign
    rw [hfindT]
    simp [Campaign.IsDeleted, htrash]
  · unfold PurgeSystemCampaign
    rw [hfindT]
    simp [Campaign.IsDeleted, htrash]
  · unfold SoftDeleteCampaign
    rw [hfindA]
    by_cases hst : cA.status = .inProgress ∨ cA.status = .queued
    · refine ⟨{ cA with
        statusBeforeDelete := some cA.status
        status := .complete
        deletedAt := some now
        deletedBy := some userID
        deleteReason := reason
        version := cA.version + 1 }, ?_, rfl, rfl, rfl, rfl⟩
      simp [hownA, Campaign.IsDeleted, hactive, hst]
    · refine ⟨{ cA with
        statusBeforeDelete := some cA.status
        deletedAt := some now
        deletedBy := some userID
        deleteReason := reason
        version := cA.version + 1 }, ?_, rfl, rfl, rfl, rfl⟩
      simp [hownA, Campaign.IsDeleted, hactive, hst]

/-- Witness for C2: purging campaign 1 of `exDBTrash` under an injected
audit failure aborts with no change; soft-deleting campaign 1 of
`exDBActive` under the same fault still commits with an empty ledger. -/
theorem audit_failure_tolerance_asymmetry_witness :
    PurgeCampaign 1 1 true { auditCreateFails := true } exDBTrash =
      (.error (.storage "failed to create audit log"), exDBTrash) ∧
    PurgeSystemCampaign 1 { auditCreateFails := true } exDBTrash =
      (.error (.storage "failed to create audit log"), exDBTrash) ∧
    ∃ c2,
      SoftDeleteCampaign 1 1 "done" 500 { auditCreateFails := true } exDBActive =
        (.ok (), exDBActive.saveCampaign c2) ∧
      c2.deletedAt = some 500 ∧
      c2.deletedBy = some 1 ∧
      c2.version = exActive.version + 1 ∧
      (exDBActive.saveCampaign c2).auditLog = exDBActive.auditLog :=
  audit_failure_tolerance_asymmetry exDBTrash exDBActive 1 1 1 "done" 500 100
    exTrashed exActive (by rfl) (by rfl) (by rfl) (by rfl) (by rfl)

/-- C4: lifecycle retries are successful no-ops.  Soft-delete by the owner
on an already-trashed campaign returns success and leaves the database
bit-for-bit unchanged (so no second audit entry); starting from an active
campaign, the first soft-delete adds exactly one audit entry and the
second soft-delete returns success with no further change at all; system
purge of a missing id (already purged) and of an active (restored)
campaign both return success with the database unchanged. -/
theorem lifecycle_idempotent_noops (db : DB) (campaignID userID : Int)
    (reason reason2 : String) (now now2 : Int) (c : Campaign)
    (hfind : db.findCampaign campaignID = some c) :
    (∀ t, c.userId = userID → c.deletedAt = some t →
      SoftDeleteCampaign campaignID userID reason now noFaults db = (.ok (), db)) ∧
    (c.userId = userID → c.deletedAt = none →
      ∃ db2, SoftDeleteCampaign campaignID userID reason now noFaults db = (.ok (), db2) ∧
        db2.auditLog.length = db.auditLog.length + 1 ∧
        SoftDeleteCampaign campaignID userID reason2 now2 noFaults db2 = (.ok (), db2)) ∧
    (∀ id2, db.findCampaign id2 = none →
      ∀ f, PurgeSystemCampaign id2 f db = (.ok (), db)) ∧
    (c.deletedAt = none → ∀ f, PurgeSystemCampaign campaignID f db = (.ok (), db)) := by
  refine ⟨?_, ?_, ?_, ?_⟩
  · intro t hown htrash
    unfold SoftDeleteCampaign
    rw [hfind]
    simp [hown, Campaign.IsDeleted, htrash]
  · intro hown hactive
    have hstep :
        ∃ c2 a, SoftDeleteCampaign campaignID userID reason now noFaults db =
          (.ok (), (db.saveCampaign c2).addAudit a) ∧
          c2.userId = c.userId ∧ c2.deletedAt = some now ∧ c2.id = c.id := by
      unfold SoftDeleteCampaign
      rw [hfind]
      by_cases hst : c.status = .inProgress ∨ c.status = .queued
      · refine ⟨{ c with
          statusBeforeDelete := some c.status
          status := .complete
          deletedAt := some now
          deletedBy := some userID
          deleteReason := reason
          version := c.version + 1 },
          { actorId := some userID
            action := AuditCampaignSoftDeleted
            entityType := "campaign"
            entityId := campaignID
            metadata := [("name", c.name), ("status_before", reprStr (some c.status)),
              ("reason", reason), ("campaign_type", c.campaignType)] },
          ?_, rfl, rfl, rfl⟩
        simp [hown, Campaign.IsDeleted, hactive, hst, noFaults]
      · refine ⟨{ c with
          statusBeforeDelete := some c.status
          deletedAt := some now
          deletedBy := some userID
          deleteReason := reason
          version := c.version + 1 },
          { actorId := some userID
            action := AuditCampaignSoftDeleted
            entityType := "campaign"
            entityId := campaignID
            metadata := [("name", c.name), ("status_before", reprStr (some c.status)),
              ("reason", reason), ("campaign_type", c.campaignType)] },
          ?_, rfl, rfl, rfl⟩
        simp [hown, Campaign.IsDeleted, hactive, hst, noFaults]
    obtain ⟨c2, a, heq, huser, hdel, hid⟩ := hstep
    refine ⟨(db.saveCampaign c2).addAudit a, heq, by simp [DB.addAudit, DB.saveCampaign], ?_⟩
    have hfind2 : ((db.saveCampaign c2).addAudit a).findCampaign campaignID = some c2 := by
      rw [findCampaign_addAudit]
      exact findCampaign_saveCampaign db campaignID c c2 hfind hid
    unfold SoftDeleteCampaign
    rw [hfind2]
    simp [huser ▸ hown, Campaign.IsDeleted, hdel]
  · intro id2 hnone f
    unfold PurgeSystemCampaign
    rw [hnone]
  · intro hactive f
    unfold PurgeSystemCampaign
    rw [hfind]
    simp [Campaign.IsDeleted, hactive]

/-- C5: soft-delete followed by restore on an active campaign with no name
conflict is a round trip up to the lifecycle bookkeeping: the restored row
keeps its identity fields and name, has status Created, `deleted_at` and
`deleted_by` cleared, `restored_at`/`restored_by` set, and a version
exactly 2 above its pre-delete value. -/
theorem softDelete_restore_roundtrip (db : DB) (campaignID userID : Int)
    (reason : String) (now1 now2 : Int) (c : Campaign)
    (hfind : db.findCampaign campaignID = some c)
    (hown : c.userId = userID)
    (hactive : c.deletedAt = none)
    (hconf : checkNameConflict db c.name userID campaignID = false) :
    ∃ db2, SoftDeleteCampaign campaignID userID reason now1 noFaults db = (.ok (), db2) ∧
    ∃ res dbF, RestoreCampaign campaignID userID now2 noFaults db2 = (.ok res, dbF) ∧
      res.nameChanged = false ∧ res.warnings = [] ∧
    ∃ c3, res.campaign = some c3 ∧
      c3.status = .created ∧
      c3.deletedAt = none ∧ c3.deletedBy = none ∧
      c3.restoredAt = some now2 ∧ c3.restoredBy = some userID ∧
      c3.version = c.version + 2 ∧
      c3.id = c.id ∧ c3.userId = c.userId ∧ c3.name = c.name ∧
      c3.campaignType = c.campaignType ∧
      dbF.findCampaign campaignID = some c3 := by
  obtain ⟨c2, a, heq, hid, huser, hname, htype, hdel, hdelBy, hver⟩ :=
    softDelete_success_shape db campaignID userID reason now1 c hfind hown hactive
  have hcid : c.id = campaignID := findCampaign_id db campaignID c hfind
  have hfind2 : ((db.saveCampaign c2).addAudit a).findCampaign campaignID = some c2 := by
    rw [findCampaign_addAudit]
    exact findCampaign_saveCampaign db campaignID c c2 hfind hid
  have hown2 : c2.userId = userID := huser.trans hown
  have ht2 : c2.IsDeleted = true := by simp [Campaign.IsDeleted, hdel]
  have hconf2 :
      checkNameConflict ((db.saveCampaign c2).addAudit a) c2.name userID campaignID = false := by
    have h1 : checkNameConflict ((db.saveCampaign c2).addAudit a) c2.name userID campaignID =
        checkNameConflict (db.saveCampaign c2) c2.name userID campaignID := rfl
    rw [h1, checkNameConflict_saveCampaign db c2 c2.name userID campaignID (hid.trans hcid),
      hname]
    exact hconf
  obtain ⟨c3, a2, heq2, hid3, huser3, hname3, htype3, hstat3, hdel3, hdelBy3,
    hra3, hrb3, hver3⟩ :=
    restore_success_shape ((db.saveCampaign c2).addAudit a) campaignID userID now2 c2
      hfind2 hown2 ht2 hconf2
  refine ⟨(db.saveCampaign c2).addAudit a, heq, _, _, heq2, rfl, rfl, c3, rfl,
    hstat3, hdel3, hdelBy3, hra3, hrb3, ?_, hid3.trans hid, huser3.trans huser,
    hname3.trans hname, htype3.trans htype, ?_⟩
  · rw [hver3, hver]
  · rw [findCampaign_addAudit]
    exact findCampaign_saveCampaign ((db.saveCampaign c2).addAudit a) campaignID c2 c3
      hfind2 hid3

/-- C7: on restore, a case-insensitive collision with another active
campaign of the same owner renames the campaign deterministically to the
restoration-timestamp-suffixed name or, after at most 9 numeric-suffix
retries, to one of the retry names; the outcome reports the rename
(`NameChanged`, `OldName`, `NewName`, one warning) and the saved row
carries the new name.  Without a collision, the name is untouched and no
warning is produced. -/
theorem restore_name_conflict_resolution (db : DB) (campaignID userID : Int)
    (now : Int) (c : Campaign)
    (hfind : db.findCampaign campaignID = some c)
    (hown : c.userId = userID)
    (ht : c.IsDeleted = true) :
    (checkNameConflict db c.name userID campaignID = true →
      ∃ res dbF, RestoreCampaign campaignID userID now noFaults db = (.ok res, dbF) ∧
        res.nameChanged = true ∧
        res.oldName = c.name ∧
        res.newName = resolveRestoreName db userID campaignID c.name now ∧
        res.warnings = ["Campaign renamed from " ++ c.name ++ " to " ++
          resolveRestoreName db userID campaignID c.name now ++ " due to name conflict"] ∧
        (res.newName = restoredMinuteName c.name now ∨
          ∃ j, 1 ≤ j ∧ j ≤ 9 ∧ res.newName = restoredRetryName c.name now j) ∧
        ∃ c3, res.campaign = some c3 ∧ c3.name = res.newName) ∧
    (checkNameConflict db c.name userID campaignID = false →
      ∃ res dbF, RestoreCampaign campaignID userID now noFaults db = (.ok res, dbF) ∧
        res.nameChanged = false ∧ res.warnings = [] ∧
        ∃ c3, res.campaign = some c3 ∧ c3.name = c.name) := by
  constructor
  · intro hconf
    have hR : RestoreCampaign campaignID userID now noFaults db =
        (.ok { success := true
               campaign := some { c with
                 name := resolveRestoreName db userID campaignID c.name now
                 deletedAt := none
                 deletedBy := none
                 restoredAt := some now
                 restoredBy := some userID
                 status := .created
                 version := c.version + 1 }
               nameChanged := true
               oldName := c.name
               newName := resolveRestoreName db userID campaignID c.name now
               warnings := ["Campaign renamed from " ++ c.name ++ " to " ++
                 resolveRestoreName db userID campaignID c.name now ++ " due to name conflict"] },
         ((db.saveCampaign { c with
             name := resolveRestoreName db userID campaignID c.name now
             deletedAt := none
             deletedBy := none
             restoredAt := some now
             restoredBy := some userID
             status := .created
             version := c.version + 1 }).addAudit
           { actorId := some userID
             action := AuditCampaignRestored
             entityType := "campaign"
             entityId := campaignID
             metadata := [("name", resolveRestoreName db userID campaignID c.name now),
               ("original_name", c.name), ("name_changed", toString true),
               ("warnings", toString ["Campaign renamed from " ++ c.name ++ " to " ++
                 resolveRestoreName db userID campaignID c.name now ++ " due to name conflict"])] })) := by
      unfold RestoreCampaign
      rw [hfind]
      simp [hown, ht, hconf, noFaults]
    refine ⟨_, _, hR, rfl, rfl, rfl, rfl, ?_, _, rfl, rfl⟩
    exact resolveRestoreName_shape db userID campaignID c.name now
  · intro hconf
    obtain ⟨c3, a, heq, hid3, hu3, hn3, hty3, hst3, hd3, hdb3, hra3, hrb3, hv3⟩ :=
      restore_success_shape db campaignID userID now c hfind hown ht hconf
    exact ⟨_, _, heq, rfl, rfl, c3, rfl, hn3⟩

/-- Witness for C7: restoring the trashed "Q4 Drive" of `exDBConflict`
(which collides with the active "q4 drive") renames and warns; restoring
campaign 1 of `exDBTrash` (no collision) keeps the name and warns not. -/
theorem restore_name_conflict_resolution_witness :
    (∃ res dbF, RestoreCampaign 1 1 600 noFaults exDBConflict = (.ok res, dbF) ∧
      res.nameChanged = true ∧
      res.oldName = exTrashed.name ∧
      res.newName = resolveRestoreName exDBConflict 1 1 exTrashed.name 600 ∧
      res.warnings = ["Campaign renamed from " ++ exTrashed.name ++ " to " ++
        resolveRestoreName exDBConflict 1 1 exTrashed.name 600 ++ " due to name conflict"] ∧
      (res.newName = restoredMinuteName exTrashed.name 600 ∨
        ∃ j, 1 ≤ j ∧ j ≤ 9 ∧ res.newName = restoredRetryName exTrashed.name 600 j) ∧
      ∃ c3, res.campaign = some c3 ∧ c3.name = res.newName) ∧
    (∃ res dbF, RestoreCampaign 1 1 600 noFaults exDBTrash = (.ok res, dbF) ∧
      res.nameChanged = false ∧ res.warnings = [] ∧
      ∃ c3, res.campaign = some c3 ∧ c3.name = exTrashed.name) :=
  ⟨(restore_name_conflict_resolution exDBConflict 1 1 600 exTrashed
      (by rfl) (by rfl) (by rfl)).1 (by decide),
   (restore_name_conflict_resolution exDBTrash 1 1 600 exTrashed
      (by rfl) (by rfl) (by rfl)).2 (by decide)⟩

/-- Witness for C5 on the queued campaign of `exDBActive`: delete at time
500, restore at time 600, version goes from 0 to 2. -/
theorem softDelete_restore_roundtrip_witness :
    ∃ db2, SoftDeleteCampaign 1 1 "done" 500 noFaults exDBActive = (.ok (), db2) ∧
    ∃ res dbF, RestoreCampaign 1 1 600 noFaults db2 = (.ok res, dbF) ∧
      res.nameChanged = false ∧ res.warnings = [] ∧
    ∃ c3, res.campaign = some c3 ∧
      c3.status = .created ∧
      c3.deletedAt = none ∧ c3.deletedBy = none ∧
      c3.restoredAt = some 600 ∧ c3.restoredBy = some 1 ∧
      c3.version = exActive.version + 2 ∧
      c3.id = exActive.id ∧ c3.userId = exActive.userId ∧ c3.name = exActive.name ∧
      c3.campaignType = exActive.campaignType ∧
      dbF.findCampaign 1 = some c3 :=
  softDelete_restore_roundtrip exDBActive 1 1 "done" 500 600 exActive
    (by rfl) (by rfl) (by rfl) (by decide)

/-- Witness for C4 on `exDBActive`: the double soft-delete leaves exactly
one audit entry, and system purge of the missing id 99 and of the active
id 1 are successful no-ops. -/
theorem lifecycle_idempotent_noops_witness :
    (∃ db2, SoftDeleteCampaign 1 1 "r1" 500 noFaults exDBActive = (.ok (), db2) ∧
      db2.auditLog.length = exDBActive.auditLog.length + 1 ∧
      SoftDeleteCampaign 1 1 "r2" 600 noFaults db2 = (.ok (), db2)) ∧
    PurgeSystemCampaign 99 noFaults exDBActive = (.ok (), exDBActive) ∧
    PurgeSystemCampaign 1 noFaults exDBActive = (.ok (), exDBActive) := by
  have h := lifecycle_idempotent_noops exDBActive 1 1 "r1" "r2" 500 600 exActive (by rfl)
  exact ⟨h.2.1 (by rfl) (by rfl), h.2.2.1 99 (by rfl) noFaults, h.2.2.2 (by rfl) noFaults⟩

/-- C1: both purge variants delete, inside one transaction and in the
fixed order, the calendar events joined through the campaign's results
(read before the results are deleted), the events, the results, the
campaign-group associations, and the campaign row, appending the purge
audit entry; the calendar step is best-effort (with it failing, everything
else is still deleted and the purge succeeds), while a failure in any
required step rolls the whole transaction back — the database, campaign
and children included, is exactly the input. -/
theorem purge_cascade_fixed_order_atomic (db : DB) (campaignID userID : Int)
    (c : Campaign) (t : Int)
    (hfind : db.findCampaign campaignID = some c)
    (htrash : c.deletedAt = some t) :
    (∃ a, a.action = AuditCampaignPurged ∧
      PurgeCampaign campaignID userID true noFaults db =
        (.ok (), { db with
          campaigns := db.campaigns.filter (fun x => x.id != campaignID)
          events := db.events.filter (fun e => e.campaignId != campaignID)
          results := db.results.filter (fun r => r.campaignId != campaignID)
          calendarEvents := db.calendarEvents.filter (fun ce =>
            !(db.results.any (fun r => r.campaignId == campaignID && r.id == ce.resultId)))
          campaignGroups := db.campaignGroups.filter (fun g => g.campaignId != campaignID)
          auditLog := db.auditLog ++ [a] })) ∧
    (∃ a, a.action = AuditCampaignPurged ∧
      PurgeCampaign campaignID userID true { deleteCalendarEventsFails := true } db =
        (.ok (), { db with
          campaigns := db.campaigns.filter (fun x => x.id != campaignID)
          events := db.events.filter (fun e => e.campaignId != campaignID)
          results := db.results.filter (fun r => r.campaignId != campaignID)
          campaignGroups := db.campaignGroups.filter (fun g => g.campaignId != campaignID)
          auditLog := db.auditLog ++ [a] })) ∧
    (∀ f : Faults,
      f.deleteEventsFails = true ∨ f.deleteResultsFails = true ∨
        f.deleteCampaignGroupsFails = true ∨ f.deleteCampaignFails = true →
      (∃ msg, PurgeCampaign campaignID userID true f db = (.error (.storage msg), db)) ∧
      (∃ msg, PurgeSystemCampaign campaignID f db = (.error (.storage msg), db))) ∧
    (∃ a, a.action = AuditCampaignPurged ∧ a.actorName = "system:trash-ttl" ∧
      PurgeSystemCampaign campaignID noFaults db =
        (.ok (), { db with
          campaigns := db.campaigns.filter (fun x => x.id != campaignID)
          events := db.events.filter (fun e => e.campaignId != campaignID)
          results := db.results.filter (fun r => r.campaignId != campaignID)
          calendarEvents := db.calendarEvents.filter (fun ce =>
            !(db.results.any (fun r => r.campaignId == campaignID && r.id == ce.resultId)))
          campaignGroups := db.campaignGroups.filter (fun g => g.campaignId != campaignID)
          auditLog := db.auditLog ++ [a] })) ∧
    (∃ a, PurgeSystemCampaign campaignID { deleteCalendarEventsFails := true } db =
        (.ok (), { db with
          campaigns := db.campaigns.filter (fun x => x.id != campaignID)
          events := db.events.filter (fun e => e.campaignId != campaignID)
          results := db.results.filter (fun r => r.campaignId != campaignID)
          campaignGroups := db.campaignGroups.filter (fun g => g.campaignId != campaignID)
          auditLog := db.auditLog ++ [a] })) := by
  refine ⟨?_, ?_, ?_, ?_, ?_⟩
  · refine ⟨{
      actorId := some userID
      action := AuditCampaignPurged
      entityType := "campaign"
      entityId := campaignID
      metadata := [("name", c.name), ("deleted_at", reprStr c.deletedAt),
        ("user_id", toString c.userId)] }, rfl, ?_⟩
    unfold PurgeCampaign cascadeDelete
    rw [hfind]
    simp [Campaign.IsDeleted, htrash, noFaults, DB.addAudit]
  · refine ⟨{
      actorId := some userID
      action := AuditCampaignPurged
      entityType := "campaign"
      entityId := campaignID
      metadata := [("name", c.name), ("deleted_at", reprStr c.deletedAt),
        ("user_id", toString c.userId)] }, rfl, ?_⟩
    unfold PurgeCampaign cascadeDelete
    rw [hfind]
    simp [Campaign.IsDeleted, htrash, DB.addAudit]
  · intro f hreq
    constructor
    · by_cases haud : f.auditCreateFails = true
      · refine ⟨"failed to create audit log", ?_⟩
        unfold PurgeCampaign
        rw [hfind]
        simp [Campaign.IsDeleted, htrash, haud]
      · simp only [Bool.not_eq_true] at haud
        obtain ⟨msg, hmsg⟩ := cascadeDelete_error campaignID f
          (db.addAudit {
            actorId := some userID
            action := AuditCampaignPurged
            entityType := "campaign"
            entityId := campaignID
            metadata := [("name", c.name), ("deleted_at", reprStr (some t : Option Int)),
              ("user_id", toString c.userId)] }) hreq
        refine ⟨msg, ?_⟩
        unfold PurgeCampaign
        rw [hfind]
        simp [Campaign.IsDeleted, htrash, haud, hmsg]
    · by_cases haud : f.auditCreateFails = true
      · refine ⟨"failed to create audit log", ?_⟩
        unfold PurgeSystemCampaign
        rw [hfind]
        simp [Campaign.IsDeleted, htrash, haud]
      · simp only [Bool.not_eq_true] at haud
        obtain ⟨msg, hmsg⟩ := cascadeDelete_error campaignID f
          (db.addAudit {
            actorId := none
            actorName := "system:trash-ttl"
            action := AuditCampaignPurged
            entityType := "campaign"
            entityId := campaignID
            metadata := [("name", c.name), ("deleted_at", reprStr (some t : Option Int)),
              ("user_id", toString c.userId), ("purge_type", "ttl_job")] }) hreq
        refine ⟨msg, ?_⟩
        unfold PurgeSystemCampaign
        rw [hfind]
        simp [Campaign.IsDeleted, htrash, haud, hmsg]
  · refine ⟨{
      actorId := none
      actorName := "system:trash-ttl"
      action := AuditCampaignPurged
      entityType := "campaign"
      entityId := campaignID
      metadata := [("name", c.name), ("deleted_at", reprStr c.deletedAt),
        ("user_id", toString c.userId), ("purge_type", "ttl_job")] }, rfl, rfl, ?_⟩
    unfold PurgeSystemCampaign cascadeDelete
    rw [hfind]
    simp [Campaign.IsDeleted, htrash, noFaults, DB.addAudit]
  · refine ⟨{
      actorId := none
      actorName := "system:trash-ttl"
      action := AuditCampaignPurged
      entityType := "campaign"
      entityId := campaignID
      metadata := [("name", c.name), ("deleted_at", reprStr c.deletedAt),
        ("user_id", toString c.userId), ("purge_type", "ttl_job")] }, ?_⟩
    unfold PurgeSystemCampaign cascadeDelete
    rw [hfind]
    simp [Campaign.IsDeleted, htrash, DB.addAudit]

/-- C9 (code defect): a single `Stop()` on a fresh scheduler instance is
fine, but when the background loop has already exited through the
`ctx.Done()` arm — which itself closes `stopChan` — a subsequent single
`Stop()` closes the already-closed channel and panics, contradicting the
requirement that `Stop()` never panic after the loop has exited. -/
theorem stop_after_ctx_cancel_panics :
    TrashTTLStop newStopChan = .ok { closed := true } ∧
    (ttlLoopExitOnCtxCancel newStopChan).bind TrashTTLStop =
      .error .closeOfClosedChannel :=
  ⟨rfl, rfl⟩

/-- C3 counterexample: the claim that interactive purge by a non-owner
fails with PermissionDenied and changes nothing is false — campaign 1 of
`exDBTrash` is owned by user 1, yet the purge requested by user 2 (with
the admin flag) succeeds and removes the campaign record. -/
theorem purge_ignores_ownership_counterexample :
    exTrashed.userId = 1 ∧
    (PurgeCampaign 1 2 true noFaults exDBTrash).1 = .ok () ∧
    (PurgeCampaign 1 2 true noFaults exDBTrash).2.campaigns = [] :=
  ⟨rfl, rfl, by decide⟩

/-- C3 amended: for every existing campaign, soft-delete and restore by a
non-owning actor fail with PermissionDenied and leave the database
unchanged; interactive purge performs no ownership check at all — without
the admin flag it fails with the generic admin-privileges error (not
PermissionDenied) before touching anything, and with the admin flag a
non-owner's purge of a trashed campaign succeeds. -/
theorem ownership_checks_amended (db : DB) (campaignID userID : Int)
    (reason : String) (now : Int) (f : Faults) (c : Campaign)
    (hfind : db.findCampaign campaignID = some c)
    (hown : c.userId ≠ userID) :
    SoftDeleteCampaign campaignID userID reason now f db =
      (.error .permissionDenied, db) ∧
    RestoreCampaign campaignID userID now f db =
      (.error .permissionDenied, db) ∧
    (∀ db2 : DB, PurgeCampaign campaignID userID false f db2 =
      (.error (.storage "purge requires admin privileges"), db2)) ∧
    (∀ t, c.deletedAt = some t →
      (PurgeCampaign campaignID userID true noFaults db).1 = .ok ()) := by
  refine ⟨?_, ?_, ?_, ?_⟩
  · unfold SoftDeleteCampaign
    rw [hfind]
    simp [hown]
  · unfold RestoreCampaign
    rw [hfind]
    simp [hown]
  · intro db2
    unfold PurgeCampaign
    simp
  · intro t htrash
    unfold PurgeCampaign cascadeDelete
    rw [hfind]
    simp [Campaign.IsDeleted, htrash, noFaults]

/-- Witness for the amended C3 on `exDBTrash` with the non-owner user 2. -/
theorem ownership_checks_amended_witness :
    SoftDeleteCampaign 1 2 "r" 500 noFaults exDBTrash =
      (.error .permissionDenied, exDBTrash) ∧
    RestoreCampaign 1 2 500 noFaults exDBTrash =
      (.error .permissionDenied, exDBTrash) ∧
    PurgeCampaign 1 2 false noFaults exDBTrash =
      (.error (.storage "purge requires admin privileges"), exDBTrash) ∧
    (PurgeCampaign 1 2 true noFaults exDBTrash).1 = .ok () := by
  have h := ownership_checks_amended exDBTrash 1 2 "r" 500 noFaults exTrashed
    (by rfl) (by decide)
  exact ⟨h.1, h.2.1, h.2.2.1 exDBTrash, h.2.2.2 100 (by rfl)⟩

/-- C8: a retention cycle computes the cutoff `now − retentionDays` days,
selects at most `batchSize` ids of campaigns whose `deleted_at` is non-null
and strictly older than the cutoff, ordered oldest `deleted_at` first (a
campaign deleted at or after the cutoff is never selected), and system
purge is applied to every candidate in that order — the final database is
the fold over the whole batch, every candidate resolving as exactly one
success or error, so a single failure does not stop the batch — and the
cycle reports an error exactly when there were candidates and none
succeeded. -/
theorem retention_cycle_selection_and_batch (db : DB) (j : TrashTTLJob)
    (now cutoff : Int) (faultsFor : Int → Faults)
    (cands : List Int) (stats : DB × Nat × Nat)
    (hNodup : (db.campaigns.map Campaign.id).Nodup)
    (hcut : cutoff = now - j.retentionDays * 86400)
    (hcands : cands = ListPurgeCandidates cutoff j.batchSize db)
    (hstats : stats = ttlBatchStats faultsFor cands db) :
    cands.length ≤ j.batchSize ∧
    (∀ x ∈ cands, ∃ c ∈ db.campaigns, c.id = x ∧
      ∃ t, c.deletedAt = some t ∧ t < cutoff) ∧
    (purgeCandidateRows db cutoff).Pairwise (fun a b => purgeKey a ≤ purgeKey b) ∧
    cands = ((purgeCandidateRows db cutoff).map Campaign.id).take j.batchSize ∧
    (∀ c ∈ db.campaigns, ∀ t, c.deletedAt = some t → cutoff ≤ t → c.id ∉ cands) ∧
    (TrashTTLJob.RunOnce j now faultsFor none db).2 =
      cands.foldl (fun d id => (PurgeSystemCampaign id (faultsFor id) d).2) db ∧
    stats.2.1 + stats.2.2 = cands.length ∧
    ((TrashTTLJob.RunOnce j now faultsFor none db).1 = .ok () ↔
      0 < stats.2.1 ∨ stats.2.2 = 0) := by
  subst hstats hcands hcut
  have hsel : ∀ x ∈ ListPurgeCandidates (now - j.retentionDays * 86400) j.batchSize db,
      ∃ c ∈ db.campaigns, c.id = x ∧
        ∃ t, c.deletedAt = some t ∧ t < now - j.retentionDays * 86400 := by
    intro x hx
    have hx2 : x ∈ (purgeCandidateRows db (now - j.retentionDays * 86400)).map Campaign.id :=
      List.take_subset _ _ hx
    obtain ⟨c, hcmem, hcid⟩ := List.mem_map.mp hx2
    unfold purgeCandidateRows at hcmem
    rw [mem_sortByDeletedAt] at hcmem
    obtain ⟨hcdb, helig⟩ := List.mem_filter.mp hcmem
    refine ⟨c, hcdb, hcid, ?_⟩
    unfold purgeEligible at helig
    cases hda : c.deletedAt with
    | none => rw [hda] at helig; simp at helig
    | some t =>
      rw [hda] at helig
      exact ⟨t, rfl, of_decide_eq_true helig⟩
  refine ⟨?_, hsel, ?_, rfl, ?_, ?_⟩
  · unfold ListPurgeCandidates
    rw [List.length_take]
    exact min_le_left _ _
  · exact sortByDeletedAt_sorted _
  · intro c hc t hda hge hmem
    obtain ⟨c', hc'db, hc'id, t', hda', hlt⟩ := hsel c.id hmem
    have hceq : c' = c := List.inj_on_of_nodup_map hNodup hc'db hc hc'id
    subst hceq
    rw [hda] at hda'
    injection hda' with hte
    omega
  · by_cases hemp : ListPurgeCandidates (now - j.retentionDays * 86400) j.batchSize db = []
    · simp [TrashTTLJob.RunOnce, hemp, ttlBatchStats]
    · have hne : (ListPurgeCandidates (now - j.retentionDays * 86400) j.batchSize db).isEmpty
          = false :=
        Bool.eq_false_iff.mpr (fun h => hemp (List.isEmpty_iff.mp h))
      unfold TrashTTLJob.RunOnce
      simp only [hne, Bool.false_eq_true, if_false]
      rw [ttlLoop_none]
      simp only [Nat.zero_add]
      refine ⟨?_, ttlBatchStats_count faultsFor _ db, ?_⟩
      · rw [apply_ite Prod.snd]
        simp [ttlBatchStats_fst_foldl]
      · by_cases hcond :
            0 < (ttlBatchStats faultsFor
              (ListPurgeCandidates (now - j.retentionDays * 86400) j.batchSize db) db).2.2 ∧
            (ttlBatchStats faultsFor
              (ListPurgeCandidates (now - j.retentionDays * 86400) j.batchSize db) db).2.1 = 0
        · rw [if_pos hcond]
          simp only [Prod.fst]
          constructor
          · intro h; exact absurd h (by simp)
          · intro h; exfalso; omega
        · rw [if_neg hcond]
          simp only [Prod.fst]
          constructor
          · intro _; omega
          · intro _; trivial

/-- Witness for C8: the spec's retention example — campaigns deleted at
T−100d, T−91d, T−10d with a 90-day retention at time T = 17280000s select
exactly the first two, oldest first, and the fault-free cycle succeeds. -/
theorem retention_cycle_selection_and_batch_witness :
    ListPurgeCandidates (17280000 - 90 * 86400) 100 exRetentionDB = [1, 2] ∧
    (∀ x ∈ ListPurgeCandidates (17280000 - 90 * 86400) 100 exRetentionDB,
      ∃ c ∈ exRetentionDB.campaigns, c.id = x ∧
        ∃ t, c.deletedAt = some t ∧ t < 17280000 - 90 * 86400) ∧
    (∀ c ∈ exRetentionDB.campaigns, ∀ t, c.deletedAt = some t →
      17280000 - 90 * 86400 ≤ t →
      c.id ∉ ListPurgeCandidates (17280000 - 90 * 86400) 100 exRetentionDB) ∧
    (exTTLJob.RunOnce 17280000 (fun _ => noFaults) none exRetentionDB).1 = .ok () := by
  have h := retention_cycle_selection_and_batch exRetentionDB exTTLJob 17280000
    (17280000 - 90 * 86400) (fun _ => noFaults)
    (ListPurgeCandidates (17280000 - 90 * 86400) 100 exRetentionDB)
    (ttlBatchStats (fun _ => noFaults)
      (ListPurgeCandidates (17280000 - 90 * 86400) 100 exRetentionDB) exRetentionDB)
    (by decide) (by rfl) (by rfl) (by rfl)
  exact ⟨by decide, h.2.1, h.2.2.2.2.1, (h.2.2.2.2.2.2.2).mpr (by decide)⟩

/-- Witness for C1 on `exDBTrash`: the fault-free interactive purge removes
exactly the rows of campaign 1 (keeping campaign 2's children), and an
injected results-deletion failure — the spec's atomicity example — leaves
the database untouched under both purge variants. -/
theorem purge_cascade_fixed_order_atomic_witness :
    (∃ a, a.action = AuditCampaignPurged ∧
      PurgeCampaign 1 1 true noFaults exDBTrash =
        (.ok (), { exDBTrash with
          campaigns := exDBTrash.campaigns.filter (fun x => x.id != 1)
          events := exDBTrash.events.filter (fun e => e.campaignId != 1)
          results := exDBTrash.results.filter (fun r => r.campaignId != 1)
          calendarEvents := exDBTrash.calendarEvents.filter (fun ce =>
            !(exDBTrash.results.any (fun r => r.campaignId == 1 && r.id == ce.resultId)))
          campaignGroups := exDBTrash.campaignGroups.filter (fun g => g.campaignId != 1)
          auditLog := exDBTrash.auditLog ++ [a] })) ∧
    (∃ msg, PurgeCampaign 1 1 true { deleteResultsFails := true } exDBTrash =
      (.error (.storage msg), exDBTrash)) ∧
    (∃ msg, PurgeSystemCampaign 1 { deleteResultsFails := true } exDBTrash =
      (.error (.storage msg), exDBTrash)) := by
  have h := purge_cascade_fixed_order_atomic exDBTrash 1 1 exTrashed 100 (by rfl) (by rfl)
  exact ⟨h.1, (h.2.2.1 { deleteResultsFails := true } (by decide)).1,
    (h.2.2.1 { deleteResultsFails := true } (by decide)).2⟩

end ChronoLure
